import Mathlib

/-!
Shallow embedding of the search/indexing engine and the ingestion job
tracker of the `jk_backend` service (files
`app/services/search_service.py`, `app/services/document_service.py`,
`app/api/v1/routers/ingestion.py`), together with proofs of the spec's
claims about them.

Strings are modelled as `List Char`; Python floats arising from the
character-frequency arithmetic are modelled as `ℚ` (all values produced
by the code are exact small rationals); counts and sizes are `Nat`;
timestamps are `Int` measured in minutes.
-/

/-- Lower-casing of a string, as Python `str.lower()` applied charwise. -/
def lowerStr (s : List Char) : List Char := s.map Char.toLower

/-- Helper of `containsSub`: does `p` occur at the head of `l`. -/
def isPref : List Char → List Char → Bool
  | [], _ => true
  | _ :: _, [] => false
  | a :: as, b :: bs => a == b && isPref as bs

/-- Python's `needle in hay` on strings: substring occurrence test. -/
def containsSub (needle : List Char) : List Char → Bool
  | [] => needle.isEmpty
  | c :: rest => isPref needle (c :: rest) || containsSub needle rest

/-- Accumulator-based helper of `splitWords`. -/
def splitWordsAux : List Char → List Char → List (List Char)
  | [], acc => if acc.isEmpty then [] else [acc.reverse]
  | c :: rest, acc =>
    if c.isWhitespace then
      if acc.isEmpty then splitWordsAux rest [] else acc.reverse :: splitWordsAux rest []
    else splitWordsAux rest (c :: acc)

/-- Python's `str.split()` with no argument: split on whitespace runs,
dropping empty pieces. -/
def splitWords (s : List Char) : List (List Char) := splitWordsAux s []

/-- Insert while keeping keys in non-increasing order, used to model
Python's stable `list.sort(key=..., reverse=True)`. -/
def insDesc {α β : Type} [LinearOrder β] (key : α → β) (x : α) : List α → List α
  | [] => [x]
  | y :: ys => if key y ≤ key x then x :: y :: ys else y :: insDesc key x ys

/-- Stable sort into non-increasing key order (insertion sort), the
semantics of Python's `list.sort(key=..., reverse=True)`. -/
def sortDesc {α β : Type} [LinearOrder β] (key : α → β) : List α → List α
  | [] => []
  | x :: xs => insDesc key x (sortDesc key xs)

/-- Insert while keeping keys in non-decreasing order. -/
def insAsc {α β : Type} [LinearOrder β] (key : α → β) (x : α) : List α → List α
  | [] => [x]
  | y :: ys => if key x ≤ key y then x :: y :: ys else y :: insAsc key x ys

/-- Stable sort into non-decreasing key order, the semantics of Python's
`sorted(...)`. -/
def sortAsc {α β : Type} [LinearOrder β] (key : α → β) : List α → List α
  | [] => []
  | x :: xs => insAsc key x (sortAsc key xs)

/-!  `MinimalRAGPipeline.generate_embeddings` (search_service.py lines 19-31).
The Python builds a dict of character counts over `text.lower()`, then a
100-slot zero vector, and writes `count / len(text)` into slot `i` for the
`i`-th of the first 100 distinct characters in ascending code-point order. -/

/-- Distinct characters of `l` in first-occurrence order — the keys of the
Python dict `chars` built by iterating over the lowered text. -/
def distinctChars (l : List Char) : List Char :=
  l.foldl (fun acc c => if acc.contains c then acc else acc ++ [c]) []

/-- Embedding of `MinimalRAGPipeline.generate_embeddings`: a 100-slot
character-frequency fingerprint of `text`. -/
def generate_embeddings (text : List Char) : List ℚ :=
  let tl := lowerStr text
  let sortedKeys := (sortAsc (fun c => c.toNat) (distinctChars tl)).take 100
  sortedKeys.enum.foldl
    (fun emb p =>
      emb.set p.1 (if 0 < text.length then (tl.count p.2 : ℚ) / (text.length : ℚ) else 0))
    (List.replicate 100 (0 : ℚ))

/-!  Data model of the lexical index (the `embeddings_store` dict of the
module-level `MinimalRAGPipeline` instance): a mapping from book id to
fingerprint + metadata snapshot + raw content, modelled as an association
list with Python-dict update semantics (existing key keeps its position
and gets the new value; a new key is appended at the end). -/

/-- Metadata snapshot stored with each index entry. -/
structure BookMeta where
  book_id : Nat
  title : List Char
  author : Option (List Char)
  genre : Option (List Char)
deriving DecidableEq

/-- One entry of the in-memory index (`embeddings_store[book_id]`). -/
structure IndexEntry where
  embedding : List ℚ
  metadata : BookMeta
  content : List Char
deriving DecidableEq

/-- The in-memory index table `embeddings_store`. -/
abbrev Store : Type := List (Nat × IndexEntry)

/-- Python dict assignment `d[k] = v`: overwrite in place if the key is
present, else append at the end. -/
def dictInsert (k : Nat) (v : IndexEntry) : Store → Store
  | [] => [(k, v)]
  | kv :: rest => if kv.1 = k then (k, v) :: rest else kv :: dictInsert k v rest

/-- Python dict lookup `d.get(k)`. -/
def dictLookup (k : Nat) : Store → Option IndexEntry
  | [] => none
  | kv :: rest => if kv.1 = k then some kv.2 else dictLookup k rest

/-- A book row together with its eagerly loaded relations, as
`index_book` reads it from the database (`Book` with `author`, `genre`
and its `Review` rows). `author`/`genre` are the related names when the
relation is present; `reviews` holds the nullable `review_text` column of
each review row. -/
structure BookRecord where
  id : Nat
  title : List Char
  author : Option (List Char)
  genre : Option (List Char)
  summary : Option (List Char)
  reviews : List (Option (List Char))
deriving DecidableEq

/-- Content blob built by `index_book` (search_service.py lines 56-73):
fixed-order parts `Title:`, `Author:`, `Genre:`, `Summary:`, `Reviews:`
joined by single spaces; a part is omitted when its source is absent
(Python truthiness: `None` and the empty string are both absent). -/
def build_content (b : BookRecord) : List Char :=
  let parts := ["Title: ".data ++ b.title]
  let parts := match b.author with
    | some a => parts ++ ["Author: ".data ++ a]
    | none => parts
  let parts := match b.genre with
    | some g => parts ++ ["Genre: ".data ++ g]
    | none => parts
  let parts := match b.summary with
    | some s => if s.isEmpty then parts else parts ++ ["Summary: ".data ++ s]
    | none => parts
  let parts :=
    if b.reviews.isEmpty then parts
    else
      let review_texts := (b.reviews.filterMap id).filter (fun t => !t.isEmpty)
      if review_texts.isEmpty then parts
      else parts ++ ["Reviews: ".data ++ List.intercalate " ".data (review_texts.take 3)]
  List.intercalate " ".data parts

/-- The index entry written for book `b` under key `book_id`
(search_service.py lines 74-85). -/
def mkIndexEntry (book_id : Nat) (b : BookRecord) : IndexEntry :=
  { embedding := generate_embeddings (build_content b)
    metadata :=
      { book_id := book_id, title := b.title, author := b.author, genre := b.genre }
    content := build_content b }

/-- Body of `MinimalRAGPipeline.index_book` before its `except` clause
(search_service.py lines 35-85). `dbFail` stands for the database
session raising on access (the only failure source of the body); a book
id absent from `db` makes the body return with the store untouched
(`if not book: return`). -/
def index_book_body (dbFail : Bool) (db : List BookRecord) (store : Store) (book_id : Nat) :
    Except (List Char) Store :=
  if dbFail then Except.error "db error".data
  else
    match db.find? (fun b => b.id == book_id) with
    | none => Except.ok store
    | some b => Except.ok (dictInsert book_id (mkIndexEntry book_id b) store)

/-- Embedding of `MinimalRAGPipeline.index_book`: the body wrapped in
`try/except`, which logs and swallows every failure, leaving the store
unchanged (search_service.py lines 86-87). -/
def index_book (dbFail : Bool) (db : List BookRecord) (store : Store) (book_id : Nat) : Store :=
  match index_book_body dbFail db store book_id with
  | Except.ok s => s
  | Except.error _ => store

/-- One search result of `search_similar_books` / the fallback. -/
structure SearchHit where
  book_id : Nat
  similarity_score : ℚ
  metadata : BookMeta
  content : List Char
deriving DecidableEq

/-- The keyword-matching score loop of `search_similar_books`
(search_service.py lines 102-105): one point per query-word occurrence
that is a substring of the lower-cased stored content; a word repeated in
the query counts once per repetition. -/
def keywordScore (query_words : List (List Char)) (content : List Char) : Nat :=
  (query_words.filter (fun word => containsSub word (lowerStr content))).length

/-- Per-item step of the `search_similar_books` loop (search_service.py
lines 98-113): a hit with score `matched words / total words` when the
score is positive, nothing otherwise. -/
def scoreHit (query_words : List (List Char)) (kv : Nat × IndexEntry) : Option SearchHit :=
  let score := keywordScore query_words kv.2.content
  if 0 < score then
    some
      { book_id := kv.1
        similarity_score :=
          if query_words.isEmpty then 0
          else (score : ℚ) / (query_words.length : ℚ)
        metadata := kv.2.metadata
        content := kv.2.content }
  else none

/-- Embedding of `MinimalRAGPipeline.search_similar_books`
(search_service.py lines 89-116): score each indexed item, keep the ones
with positive score, sort by score descending (stable), return the first
`n_results`. -/
def search_similar_books (store : Store) (query : List Char) (n_results : Nat) :
    List SearchHit :=
  if store.isEmpty then []
  else
    let query_words := splitWords (lowerStr query)
    let results := store.filterMap (scoreHit query_words)
    (sortDesc (fun h => h.similarity_score) results).take n_results

/-- One fallback search result (search_service.py lines 169-182): uniform
score 1.0, metadata rebuilt from the book row, content is just the title
part. -/
def fallbackHit (b : BookRecord) : SearchHit :=
  { book_id := b.id
    similarity_score := 1
    metadata := { book_id := b.id, title := b.title, author := b.author, genre := b.genre }
    content := "Title: ".data ++ b.title }

/-- The database fallback of `SearchService.search_books`
(search_service.py lines 156-182): case-insensitive substring match of
the query against book titles, the `Book.title.ilike` filter, capped at
`limit` rows. -/
def fallback_search (books : List BookRecord) (query : List Char) (limit : Nat) :
    List SearchHit :=
  ((books.filter (fun b => containsSub (lowerStr query) (lowerStr b.title))).take limit).map
    fallbackHit

/-- Response shape of `SearchService.search_books`. -/
structure SearchResponse where
  query : List Char
  results : List SearchHit
deriving DecidableEq

/-- Embedding of `SearchService.search_books` (search_service.py lines
136-184): matcher first, fallback only when the matcher returned nothing,
wrapped with the original query. `books` is the persisted `Book` table. -/
def search_books (store : Store) (books : List BookRecord) (query : List Char)
    (limit : Nat) : SearchResponse :=
  let results := search_similar_books store query limit
  if results.isEmpty then
    { query := query, results := fallback_search books query limit }
  else
    { query := query, results := results }

/-- Statistics returned by `SearchService.reindex_all_books`. -/
structure ReindexStats where
  total_books : Nat
  indexed_count : Nat
  total_in_store : Nat
deriving DecidableEq

/-- Embedding of `SearchService.reindex_all_books` (search_service.py
lines 186-209): index every persisted book in order, counting each
attempt that did not raise (none does, since `index_book` swallows its
failures); `dbFail` gives the failure oracle per book id. -/
def reindex_all_books (dbFail : Nat → Bool) (books : List BookRecord) (store : Store) :
    Store × ReindexStats :=
  let folded := books.foldl
    (fun acc b => (index_book (dbFail b.id) books acc.1 b.id, acc.2 + 1))
    (store, 0)
  (folded.1,
    { total_books := books.length
      indexed_count := folded.2
      total_in_store := folded.1.length })

/-!  Ingestion job tracker (app/api/v1/routers/ingestion.py and
`DocumentService.get_document`).  Timestamps are `Int` minutes; the
relational store is modelled as the lists of document rows and job rows
plus the id counter the store would assign to the next job. -/

/-- The `status` column of `ingestion_jobs`
(`pending | running | completed | failed`). -/
inductive JobStatus where
  | pending
  | running
  | completed
  | failed
deriving DecidableEq

/-- One row of the `ingestion_jobs` table. -/
structure JobRow where
  id : Nat
  document_id : Nat
  status : JobStatus
  created_at : Int
deriving DecidableEq

/-- One row of the `documents` table (the columns the tracker reads). -/
structure DocRow where
  id : Nat
  filename : List Char
deriving DecidableEq

/-- The persistent state the tracker operates on. -/
structure TrackerState where
  docs : List DocRow
  jobs : List JobRow
  nextJobId : Nat
deriving DecidableEq

/-- Embedding of `DocumentService.get_document` (document_service.py
lines 63-79): point lookup, `DocumentNotFoundError` when absent. -/
def get_document (docs : List DocRow) (document_id : Nat) : Except Unit DocRow :=
  match docs.find? (fun d => d.id == document_id) with
  | some d => Except.ok d
  | none => Except.error ()

/-- Embedding of the `trigger_ingestion` handler (ingestion.py lines
17-36): verify the document exists (propagating NotFound), insert one job
row with status `running`, and return the fresh job id right away — the
returned state does not include the effect of the scheduled background
completion. -/
def trigger_ingestion (st : TrackerState) (now : Int) (document_id : Nat) :
    Except Unit (TrackerState × Nat) :=
  match get_document st.docs document_id with
  | Except.error e => Except.error e
  | Except.ok _ =>
    let job : JobRow :=
      { id := st.nextJobId, document_id := document_id
        status := JobStatus.running, created_at := now }
    Except.ok
      ({ st with jobs := st.jobs ++ [job], nextJobId := st.nextJobId + 1 }, st.nextJobId)

/-- Embedding of the background task `process_ingestion_job` (ingestion.py
lines 39-49): look the job up in a fresh session and set its status to
`completed` when it exists. -/
def process_ingestion_job (st : TrackerState) (job_id : Nat) : TrackerState :=
  { st with
    jobs := st.jobs.map (fun j =>
      if j.id == job_id then { j with status := JobStatus.completed } else j) }

/-- Embedding of the `ingestion_status` handler (ingestion.py lines
52-62): NotFound when the job is absent, else its status and creation
time. -/
def ingestion_status (st : TrackerState) (job_id : Nat) : Except Unit (JobStatus × Int) :=
  match st.jobs.find? (fun j => j.id == job_id) with
  | some j => Except.ok (j.status, j.created_at)
  | none => Except.error ()

/-- The row shape returned by `list_ingestion_jobs`. -/
structure JobView where
  id : Nat
  document_id : Nat
  filename : List Char
  status : JobStatus
  created_at : Int
deriving DecidableEq

/-- Join step of `list_ingestion_jobs`: the view of job `j` with its
document's filename, when its document exists. -/
def mkJobView (st : TrackerState) (j : JobRow) : Option JobView :=
  (st.docs.find? (fun d => d.id == j.document_id)).map (fun d =>
    { id := j.id, document_id := j.document_id, filename := d.filename
      status := j.status, created_at := j.created_at })

/-- Embedding of the `list_ingestion_jobs` handler (ingestion.py lines
65-81): inner join of jobs with their document's filename, ordered by
creation time descending. -/
def list_ingestion_jobs (st : TrackerState) : List JobView :=
  sortDesc (fun v => v.created_at) (st.jobs.filterMap (mkJobView st))

/-- The sweep condition of `complete_stuck_jobs` (ingestion.py lines
96-106): status `running` and created strictly before now minus 5
minutes. -/
def isStuck (now : Int) (j : JobRow) : Bool :=
  j.status == JobStatus.running && decide (j.created_at < now - 5)

/-- Embedding of the `complete_stuck_jobs` handler (ingestion.py lines
93-117): select the running jobs older than the 5-minute cutoff, force
each to `completed`, and report how many were affected. -/
def complete_stuck_jobs (st : TrackerState) (now : Int) : TrackerState × Nat :=
  let stuck := st.jobs.filter (isStuck now)
  ({ st with
      jobs := st.jobs.map (fun j =>
        if isStuck now j then { j with status := JobStatus.completed } else j) },
    stuck.length)

/-- The operations of the tracker, for the temporal claim about job
statuses. -/
inductive TrackerOp where
  | trigger (document_id : Nat) (now : Int)
  | processJob (job_id : Nat)
  | sweep (now : Int)
  | status (job_id : Nat)
  | listJobs
deriving DecidableEq

/-- State transition of one tracker operation (read-only operations leave
the state unchanged; a failed trigger inserts nothing). -/
def applyOp (op : TrackerOp) (st : TrackerState) : TrackerState :=
  match op with
  | TrackerOp.trigger document_id now =>
    match trigger_ingestion st now document_id with
    | Except.ok (st', _) => st'
    | Except.error _ => st
  | TrackerOp.processJob job_id => process_ingestion_job st job_id
  | TrackerOp.sweep now => (complete_stuck_jobs st now).1
  | TrackerOp.status _ => st
  | TrackerOp.listJobs => st

/-- Status of the job `job_id` as the store reports it. -/
def jobStatus (st : TrackerState) (job_id : Nat) : Option JobStatus :=
  (st.jobs.find? (fun j => j.id == job_id)).map (fun j => j.status)

/-!  Helper lemmas about the sorting model. -/

theorem mem_insDesc {α β : Type} [LinearOrder β] (key : α → β) (x a : α) (l : List α) :
    a ∈ insDesc key x l ↔ a = x ∨ a ∈ l := by
  induction l with
  | nil => simp [insDesc]
  | cons y ys ih =>
    by_cases h : key y ≤ key x
    · simp [insDesc, h]
    · simp [insDesc, h, ih]
      tauto

theorem perm_insDesc {α β : Type} [LinearOrder β] (key : α → β) (x : α) (l : List α) :
    List.Perm (insDesc key x l) (x :: l) := by
  induction l with
  | nil => simp [insDesc]
  | cons y ys ih =>
    by_cases h : key y ≤ key x
    · simp [insDesc, h]
    · simp only [insDesc, if_neg h]
      exact (ih.cons y).trans (List.Perm.swap x y ys)

theorem sortDesc_perm {α β : Type} [LinearOrder β] (key : α → β) (l : List α) :
    List.Perm (sortDesc key l) l := by
  induction l with
  | nil => simp [sortDesc]
  | cons x xs ih => exact (perm_insDesc key x (sortDesc key xs)).trans (ih.cons x)

theorem pairwise_insDesc {α β : Type} [LinearOrder β] (key : α → β) (x : α) (l : List α)
    (h : List.Pairwise (fun a b => key b ≤ key a) l) :
    List.Pairwise (fun a b => key b ≤ key a) (insDesc key x l) := by
  induction l with
  | nil => simp [insDesc]
  | cons y ys ih =>
    rcases List.pairwise_cons.mp h with ⟨hy, hys⟩
    by_cases hxy : key y ≤ key x
    · simp only [insDesc, if_pos hxy]
      refine List.pairwise_cons.mpr ⟨?_, h⟩
      intro b hb
      rcases List.mem_cons.mp hb with rfl | hb
      · exact hxy
      · exact le_trans (hy b hb) hxy
    · simp only [insDesc, if_neg hxy]
      refine List.pairwise_cons.mpr ⟨?_, ih hys⟩
      intro b hb
      rcases (mem_insDesc key x b ys).mp hb with rfl | hb
      · exact le_of_lt (lt_of_not_le hxy)
      · exact hy b hb

theorem sortDesc_pairwise {α β : Type} [LinearOrder β] (key : α → β) (l : List α) :
    List.Pairwise (fun a b => key b ≤ key a) (sortDesc key l) := by
  induction l with
  | nil => simp [sortDesc]
  | cons x xs ih => exact pairwise_insDesc key x (sortDesc key xs) ih

/-!  Claim C1: properties of `search_similar_books`. -/

theorem keywordScore_le (query_words : List (List Char)) (content : List Char) :
    keywordScore query_words content ≤ query_words.length :=
  List.length_filter_le _ _

theorem scoreHit_pos (query_words : List (List Char)) (kv : Nat × IndexEntry)
    (h : SearchHit) (hkv : scoreHit query_words kv = some h) :
    0 < h.similarity_score := by
  unfold scoreHit at hkv
  by_cases hpos : 0 < keywordScore query_words kv.2.content
  · simp only [hpos, if_true, Option.some_inj] at hkv
    have hne : query_words ≠ [] := by
      rintro rfl
      exact absurd (Nat.lt_of_lt_of_le hpos (keywordScore_le [] kv.2.content)) (by simp)
    have hlen : 0 < query_words.length := List.length_pos.mpr hne
    have hnemp : query_words.isEmpty = false := by
      simpa [List.isEmpty_iff] using hne
    rw [← hkv]
    simp only [hnemp, if_false, Bool.false_eq_true]
    exact div_pos (by exact_mod_cast hpos) (by exact_mod_cast hlen)
  · simp [hpos] at hkv

theorem search_similar_books_empty_query (store : Store) (n_results : Nat) :
    search_similar_books store [] n_results = [] := by
  unfold search_similar_books
  by_cases hs : store.isEmpty
  · simp [hs]
  · simp only [hs, if_false, Bool.false_eq_true]
    have hnil : store.filterMap (scoreHit (splitWords (lowerStr []))) = [] :=
      List.filterMap_eq_nil_iff.mpr fun kv _ => rfl
    rw [hnil]
    simp [sortDesc]

theorem mem_search_similar_books (store : Store) (query : List Char) (n_results : Nat)
    (h : SearchHit) (hmem : h ∈ search_similar_books store query n_results) :
    0 < h.similarity_score := by
  unfold search_similar_books at hmem
  by_cases hs : store.isEmpty
  · simp [hs] at hmem
  · simp only [hs, if_false, Bool.false_eq_true] at hmem
    have hmem2 := (sortDesc_perm (fun h : SearchHit => h.similarity_score) _).mem_iff.mp
      (List.take_subset _ _ hmem)
    rcases List.mem_filterMap.mp hmem2 with ⟨kv, _, hkv⟩
    exact scoreHit_pos _ kv h hkv

/-- C1: for every query and `topK`, `search_similar_books` returns only
items with strictly positive score, at most `topK` of them, sorted
non-increasing by score; the empty query yields an empty term list, a
zero score for every item, and an empty result. -/
theorem search_similar_books_spec (store : Store) (query : List Char) (n_results : Nat) :
    ((search_similar_books store query n_results).all
        fun h => decide (0 < h.similarity_score)) = true ∧
    (search_similar_books store query n_results).length ≤ n_results ∧
    List.Pairwise (fun a b : SearchHit => b.similarity_score ≤ a.similarity_score)
      (search_similar_books store query n_results) ∧
    splitWords (lowerStr []) = [] ∧
    (∀ content : List Char, keywordScore (splitWords (lowerStr [])) content = 0) ∧
    search_similar_books store [] n_results = [] := by
  refine ⟨?_, ?_, ?_, rfl, fun content => rfl, ?_⟩
  · exact List.all_eq_true.mpr fun h hmem =>
      decide_eq_true (mem_search_similar_books store query n_results h hmem)
  · unfold search_similar_books
    by_cases hs : store.isEmpty
    · simp [hs]
    · simp only [hs, if_false, Bool.false_eq_true]
      exact le_trans (List.length_take _ _ ▸ min_le_left _ _) (le_refl _)
  · unfold search_similar_books
    by_cases hs : store.isEmpty
    · simp [hs]
    · simp only [hs, if_false, Bool.false_eq_true]
      exact List.Pairwise.sublist (List.take_sublist _ _) (sortDesc_pairwise _ _)
  · exact search_similar_books_empty_query store n_results

/-!  Claim C2 groundwork: the embedding-vector fold only ever rewrites
slots of the initial 100-slot zero vector. -/

/-- Unfolded form of `generate_embeddings`, for rewriting. -/
theorem generate_embeddings_eq (text : List Char) :
    generate_embeddings text =
      List.foldl
        (fun emb p =>
          emb.set p.1
            (if 0 < text.length then ((lowerStr text).count p.2 : ℚ) / (text.length : ℚ)
             else 0))
        (List.replicate 100 (0 : ℚ))
        ((sortAsc (fun c => c.toNat) (distinctChars (lowerStr text))).take 100).enum :=
  rfl

theorem length_foldl_set (l : List (Nat × Char)) (f : Nat × Char → ℚ) (init : List ℚ) :
    (List.foldl (fun emb p => emb.set p.1 (f p)) init l).length = init.length := by
  induction l generalizing init with
  | nil => rfl
  | cons p t ih => rw [List.foldl_cons, ih, List.length_set]

theorem mem_foldl_set (P : ℚ → Prop) (l : List (Nat × Char)) (f : Nat × Char → ℚ)
    (init : List ℚ) (hinit : ∀ v ∈ init, P v) (hf : ∀ p, P (f p)) :
    ∀ v ∈ List.foldl (fun emb p => emb.set p.1 (f p)) init l, P v := by
  induction l generalizing init with
  | nil => exact hinit
  | cons p t ih =>
    intro v hv
    rw [List.foldl_cons] at hv
    refine ih _ ?_ v hv
    intro w hw
    rcases List.mem_or_eq_of_mem_set hw with hw | rfl
    · exact hinit w hw
    · exact hf p

/-- C2: the fingerprint of any text has length exactly 100, every entry
lies in [0,1], and the empty text yields the all-zero fingerprint. -/
theorem generate_embeddings_spec (text : List Char) :
    (generate_embeddings text).length = 100 ∧
    ((generate_embeddings text).all fun v => decide (0 ≤ v) && decide (v ≤ 1)) = true ∧
    generate_embeddings [] = List.replicate 100 0 := by
  refine ⟨?_, ?_, rfl⟩
  · rw [generate_embeddings_eq, length_foldl_set, List.length_replicate]
  · apply List.all_eq_true.mpr
    intro v hv
    rw [generate_embeddings_eq] at hv
    have hb : 0 ≤ v ∧ v ≤ 1 := by
      refine mem_foldl_set (fun q => 0 ≤ q ∧ q ≤ 1) _ _ _ ?_ ?_ v hv
      · intro w hw
        rw [List.eq_of_mem_replicate hw]
        norm_num
      · intro p
        by_cases hlen : 0 < text.length
        · simp only [hlen, if_true]
          constructor
          · exact div_nonneg (Nat.cast_nonneg _) (Nat.cast_nonneg _)
          · rw [div_le_one (by exact_mod_cast hlen)]
            have hcount : (lowerStr text).count p.2 ≤ text.length := by
              calc (lowerStr text).count p.2 ≤ (lowerStr text).length :=
                    List.count_le_length _ _
                _ = text.length := List.length_map _ _
            exact_mod_cast hcount
        · simp only [hlen, if_false]
          norm_num
    simpa using hb

/-!  Claim C3: fallback behaviour of `search_books`. -/

/-- C3: the fallback path is taken exactly when the matcher came back
empty; it is a case-insensitive substring match of the query against
stored titles, capped at `limit`, every fallback hit scoring exactly 1;
a non-empty matcher result is passed through unchanged; the response
always carries the original query. -/
theorem search_books_spec (store : Store) (books : List BookRecord) (query : List Char)
    (limit : Nat) :
    (search_books store books query limit).query = query ∧
    (search_books store books query limit).results =
      (if (search_similar_books store query limit).isEmpty then
        ((books.filter (fun b => containsSub (lowerStr query) (lowerStr b.title))).take
          limit).map fallbackHit
       else search_similar_books store query limit) ∧
    ((fallback_search books query limit).all fun h => decide (h.similarity_score = 1))
      = true ∧
    (fallback_search books query limit).length ≤ limit ∧
    (∀ b : BookRecord, (fallbackHit b).similarity_score = 1) := by
  refine ⟨?_, ?_, ?_, ?_, fun b => rfl⟩
  · unfold search_books
    by_cases hi : (search_similar_books store query limit).isEmpty
    · simp [hi]
    · simp [hi]
  · unfold search_books
    by_cases hi : (search_similar_books store query limit).isEmpty
    · simp only [hi, if_true]
      rfl
    · simp [hi]
  · apply List.all_eq_true.mpr
    intro h hmem
    rcases List.mem_map.mp hmem with ⟨b, _, rfl⟩
    exact decide_eq_true rfl
  · unfold fallback_search
    rw [List.length_map, List.length_take]
    exact min_le_left _ _

/-!  Claim C4: `trigger_ingestion`. -/

/-- C4: triggering ingestion for a missing document propagates NotFound
and leaves the job table untouched; for an existing document exactly one
job row is inserted, with status `running`, and the fresh job id is
returned immediately — the returned state does not contain the effect of
the scheduled background completion. -/
theorem trigger_ingestion_spec (st : TrackerState) (now : Int) (document_id : Nat) :
    (get_document st.docs document_id = Except.error () →
      trigger_ingestion st now document_id = Except.error ()) ∧
    (∀ d : DocRow, get_document st.docs document_id = Except.ok d →
      trigger_ingestion st now document_id =
        Except.ok
          ({ st with
              jobs := st.jobs ++
                [{ id := st.nextJobId, document_id := document_id
                   status := JobStatus.running, created_at := now }]
              nextJobId := st.nextJobId + 1 }, st.nextJobId)) := by
  constructor
  · intro h
    unfold trigger_ingestion
    rw [h]
  · intro d h
    unfold trigger_ingestion
    rw [h]

/-- Witness for C4 on a one-document store. -/
theorem trigger_ingestion_spec_witness :
    trigger_ingestion
        { docs := [{ id := 7, filename := "doc.pdf".data }], jobs := [], nextJobId := 1 }
        0 7 =
      Except.ok
        ({ docs := [{ id := 7, filename := "doc.pdf".data }]
           jobs := [{ id := 1, document_id := 7
                      status := JobStatus.running, created_at := 0 }]
           nextJobId := 2 }, 1) :=
  (trigger_ingestion_spec
      { docs := [{ id := 7, filename := "doc.pdf".data }], jobs := [], nextJobId := 1 }
      0 7).2 { id := 7, filename := "doc.pdf".data } rfl

/-!  Claim C5: the stuck-job sweep. -/

theorem isStuck_iff (now : Int) (j : JobRow) :
    isStuck now j = true ↔ (j.status = JobStatus.running ∧ j.created_at < now - 5) := by
  simp [isStuck]

/-- C5: the sweep turns to `completed` exactly the jobs that are
`running` and strictly older than now minus 5 minutes, returns their
count, and modifies no other row; concretely, with `now = 100`, a running
job from minute 90 is completed, a running job from minute 99 and an old
completed job are untouched, and the count is 1. -/
theorem complete_stuck_jobs_spec (st : TrackerState) (now : Int) :
    (complete_stuck_jobs st now).1.docs = st.docs ∧
    (complete_stuck_jobs st now).1.nextJobId = st.nextJobId ∧
    (complete_stuck_jobs st now).1.jobs =
      st.jobs.map (fun j =>
        if j.status = JobStatus.running ∧ j.created_at < now - 5 then
          { j with status := JobStatus.completed }
        else j) ∧
    (complete_stuck_jobs st now).2 =
      (st.jobs.filter (fun j =>
        j.status == JobStatus.running && decide (j.created_at < now - 5))).length ∧
    (complete_stuck_jobs
        { docs := [], nextJobId := 4
          jobs := [{ id := 1, document_id := 1, status := JobStatus.running, created_at := 90 },
                   { id := 2, document_id := 1, status := JobStatus.running, created_at := 99 },
                   { id := 3, document_id := 1, status := JobStatus.completed, created_at := 0 }] }
        100).1.jobs =
      [{ id := 1, document_id := 1, status := JobStatus.completed, created_at := 90 },
       { id := 2, document_id := 1, status := JobStatus.running, created_at := 99 },
       { id := 3, document_id := 1, status := JobStatus.completed, created_at := 0 }] ∧
    (complete_stuck_jobs
        { docs := [], nextJobId := 4
          jobs := [{ id := 1, document_id := 1, status := JobStatus.running, created_at := 90 },
                   { id := 2, document_id := 1, status := JobStatus.running, created_at := 99 },
                   { id := 3, document_id := 1, status := JobStatus.completed, created_at := 0 }] }
        100).2 = 1 := by
  refine ⟨rfl, rfl, ?_, rfl, by decide, by decide⟩
  unfold complete_stuck_jobs
  simp only
  congr 1
  funext j
  by_cases h : j.status = JobStatus.running ∧ j.created_at < now - 5
  · rw [if_pos ((isStuck_iff now j).mpr h), if_pos h]
  · rw [if_neg (fun hb => h ((isStuck_iff now j).mp hb)), if_neg h]

/-!  Claim C6: last-write-wins reindexing in the lexical index. -/

theorem dictLookup_dictInsert_self (k : Nat) (v : IndexEntry) (s : Store) :
    dictLookup k (dictInsert k v s) = some v := by
  induction s with
  | nil => simp [dictInsert, dictLookup]
  | cons kv rest ih =>
    by_cases h : kv.1 = k
    · simp [dictInsert, dictLookup, h]
    · simp [dictInsert, dictLookup, h, ih]

theorem dictLookup_dictInsert_ne (k k2 : Nat) (v : IndexEntry) (s : Store) (h : k2 ≠ k) :
    dictLookup k2 (dictInsert k v s) = dictLookup k2 s := by
  have h1 : ¬(k = k2) := fun he => h he.symm
  induction s with
  | nil => simp [dictInsert, dictLookup, h1]
  | cons kv rest ih =>
    by_cases hk : kv.1 = k
    · rw [dictInsert, if_pos hk, dictLookup, dictLookup, if_neg h1,
        if_neg (by rw [hk]; exact h1)]
    · rw [dictInsert, if_neg hk, dictLookup, dictLookup]
      by_cases hk2 : kv.1 = k2
      · rw [if_pos hk2, if_pos hk2]
      · rw [if_neg hk2, if_neg hk2, ih]

theorem length_dictInsert_of_lookup (k : Nat) (v e : IndexEntry) (s : Store)
    (h : dictLookup k s = some e) : (dictInsert k v s).length = s.length := by
  induction s with
  | nil => simp [dictLookup] at h
  | cons kv rest ih =>
    by_cases hk : kv.1 = k
    · simp [dictInsert, hk]
    · rw [dictLookup, if_neg hk] at h
      simp [dictInsert, hk, ih h]

/-- C6: indexing the same book id twice writes to the same key — the
table does not grow on the second write, the stored entry reflects the
latest book row, and entries under other ids are unchanged by either
write. -/
theorem index_book_reindex_spec (db db2 : List BookRecord) (store : Store) (book_id : Nat)
    (b b2 : BookRecord)
    (h : db.find? (fun x => x.id == book_id) = some b)
    (h2 : db2.find? (fun x => x.id == book_id) = some b2) :
    (index_book false db2 (index_book false db store book_id) book_id).length =
      (index_book false db store book_id).length ∧
    dictLookup book_id (index_book false db2 (index_book false db store book_id) book_id) =
      some (mkIndexEntry book_id b2) ∧
    (∀ k, k ≠ book_id →
      dictLookup k (index_book false db2 (index_book false db store book_id) book_id) =
        dictLookup k (index_book false db store book_id)) ∧
    (∀ k, k ≠ book_id →
      dictLookup k (index_book false db store book_id) = dictLookup k store) := by
  have e1 : index_book false db store book_id =
      dictInsert book_id (mkIndexEntry book_id b) store := by
    unfold index_book index_book_body
    rw [if_neg (by simp), h]
  have e2 : index_book false db2 (index_book false db store book_id) book_id =
      dictInsert book_id (mkIndexEntry book_id b2)
        (dictInsert book_id (mkIndexEntry book_id b) store) := by
    rw [e1]
    unfold index_book index_book_body
    rw [if_neg (by simp), h2]
  refine ⟨?_, ?_, ?_, ?_⟩
  · rw [e2, e1]
    exact length_dictInsert_of_lookup _ _ _ _ (dictLookup_dictInsert_self _ _ _)
  · rw [e2]
    exact dictLookup_dictInsert_self _ _ _
  · intro k hk
    rw [e2, e1]
    exact dictLookup_dictInsert_ne _ _ _ _ hk
  · intro k hk
    rw [e1]
    exact dictLookup_dictInsert_ne _ _ _ _ hk

/-- Witness for C6: the same book id indexed twice from two one-row
tables. -/
theorem index_book_reindex_spec_witness :
    (index_book false
        [{ id := 5, title := "B".data, author := none, genre := none
           summary := none, reviews := [] }]
        (index_book false
          [{ id := 5, title := "A".data, author := none, genre := none
             summary := none, reviews := [] }]
          [] 5)
        5).length =
      (index_book false
        [{ id := 5, title := "A".data, author := none, genre := none
           summary := none, reviews := [] }]
        [] 5).length :=
  (index_book_reindex_spec
      [{ id := 5, title := "A".data, author := none, genre := none
         summary := none, reviews := [] }]
      [{ id := 5, title := "B".data, author := none, genre := none
         summary := none, reviews := [] }]
      [] 5
      { id := 5, title := "A".data, author := none, genre := none
        summary := none, reviews := [] }
      { id := 5, title := "B".data, author := none, genre := none
        summary := none, reviews := [] }
      rfl rfl).1

/-!  Claim C7: stability of the `completed` status. -/

theorem find?_map_preserve_id (jobs : List JobRow) (g : JobRow → JobRow)
    (hid : ∀ j, (g j).id = j.id) (target : Nat) :
    (jobs.map g).find? (fun j => j.id == target) =
      (jobs.find? (fun j => j.id == target)).map g := by
  induction jobs with
  | nil => rfl
  | cons j t ih =>
    rw [List.map_cons]
    cases h : (j.id == target) with
    | true => simp [List.find?_cons, hid, h]
    | false => simp [List.find?_cons, hid, h, ih]

theorem mapped_state_stable (jobs : List JobRow) (g : JobRow → JobRow) (job_id : Nat)
    (hid : ∀ j, (g j).id = j.id)
    (hcomp : ∀ j, j.status = JobStatus.completed → (g j).status = JobStatus.completed)
    (hnew : ∀ j, ((g j).status = JobStatus.failed ∨ (g j).status = JobStatus.pending) →
      g j = j) :
    ((jobs.find? (fun j => j.id == job_id)).map (fun j => j.status) =
        some JobStatus.completed →
      ((jobs.map g).find? (fun j => j.id == job_id)).map (fun j => j.status) =
        some JobStatus.completed) ∧
    (∀ j ∈ jobs.map g, (j.status = JobStatus.failed ∨ j.status = JobStatus.pending) →
      j ∈ jobs) := by
  constructor
  · intro h
    rcases Option.map_eq_some'.mp h with ⟨j0, hj0, hst⟩
    rw [find?_map_preserve_id jobs g hid job_id, hj0, Option.map_some', Option.map_some',
      hcomp j0 hst]
  · intro j hj hbad
    rcases List.mem_map.mp hj with ⟨j0, hj0, rfl⟩
    rw [hnew j0 hbad]
    exact hj0

theorem appended_state_stable (jobs : List JobRow) (nj : JobRow) (job_id : Nat)
    (hnj : nj.status = JobStatus.running) :
    ((jobs.find? (fun j => j.id == job_id)).map (fun j => j.status) =
        some JobStatus.completed →
      (((jobs ++ [nj]).find? (fun j => j.id == job_id)).map (fun j => j.status) =
        some JobStatus.completed)) ∧
    (∀ j ∈ jobs ++ [nj], (j.status = JobStatus.failed ∨ j.status = JobStatus.pending) →
      j ∈ jobs) := by
  constructor
  · intro h
    rcases Option.map_eq_some'.mp h with ⟨j0, hj0, hst⟩
    rw [List.find?_append, hj0]
    simp [Option.or, hst]
  · intro j hj hbad
    rcases List.mem_append.mp hj with h | h
    · exact h
    · have hje : j = nj := by simpa using h
      subst hje
      rcases hbad with hb | hb <;> rw [hnj] at hb <;> cases hb

/-- C7: once a job's status is `completed` no tracker operation changes
it, and no operation ever writes the `failed` or `pending` status — any
failed or pending row after a step was already there before it. -/
theorem completed_status_stable (op : TrackerOp) (st : TrackerState) (job_id : Nat) :
    (jobStatus st job_id = some JobStatus.completed →
      jobStatus (applyOp op st) job_id = some JobStatus.completed) ∧
    (∀ j ∈ (applyOp op st).jobs,
      (j.status = JobStatus.failed ∨ j.status = JobStatus.pending) → j ∈ st.jobs) := by
  cases op with
  | trigger document_id now =>
    cases hdoc : get_document st.docs document_id with
    | error e =>
      have ht : trigger_ingestion st now document_id = Except.error e := by
        unfold trigger_ingestion
        rw [hdoc]
      constructor
      · intro h
        simpa [applyOp, ht] using h
      · intro j hj _
        simpa [applyOp, ht] using hj
    | ok d =>
      have ht : trigger_ingestion st now document_id =
          Except.ok
            ({ st with
                jobs := st.jobs ++
                  [{ id := st.nextJobId, document_id := document_id
                     status := JobStatus.running, created_at := now }]
                nextJobId := st.nextJobId + 1 }, st.nextJobId) := by
        unfold trigger_ingestion
        rw [hdoc]
      constructor
      · intro h
        simp only [applyOp, ht]
        exact (appended_state_stable st.jobs _ job_id rfl).1 h
      · intro j hj hbad
        simp only [applyOp, ht] at hj
        exact (appended_state_stable st.jobs _ job_id rfl).2 j hj hbad
  | processJob jid =>
    constructor
    · intro h
      exact (mapped_state_stable st.jobs _ job_id
        (fun j => by by_cases hc : (j.id == jid) = true <;> simp [hc])
        (fun j hj => by by_cases hc : (j.id == jid) = true <;> simp [hc, hj])
        (fun j hj => by
          by_cases hc : (j.id == jid) = true
          · rcases hj with hb | hb <;> simp [hc] at hb
          · simp [hc])).1 h
    · intro j hj hbad
      exact (mapped_state_stable st.jobs _ job_id
        (fun j => by by_cases hc : (j.id == jid) = true <;> simp [hc])
        (fun j hj => by by_cases hc : (j.id == jid) = true <;> simp [hc, hj])
        (fun j hj => by
          by_cases hc : (j.id == jid) = true
          · rcases hj with hb | hb <;> simp [hc] at hb
          · simp [hc])).2 j hj hbad
  | sweep now =>
    constructor
    · intro h
      exact (mapped_state_stable st.jobs _ job_id
        (fun j => by by_cases hc : isStuck now j = true <;> simp [hc])
        (fun j hj => by by_cases hc : isStuck now j = true <;> simp [hc, hj])
        (fun j hj => by
          by_cases hc : isStuck now j = true
          · rcases hj with hb | hb <;> simp [hc] at hb
          · simp [hc])).1 h
    · intro j hj hbad
      exact (mapped_state_stable st.jobs _ job_id
        (fun j => by by_cases hc : isStuck now j = true <;> simp [hc])
        (fun j hj => by by_cases hc : isStuck now j = true <;> simp [hc, hj])
        (fun j hj => by
          by_cases hc : isStuck now j = true
          · rcases hj with hb | hb <;> simp [hc] at hb
          · simp [hc])).2 j hj hbad
  | status jid => exact ⟨fun h => h, fun j hj _ => hj⟩
  | listJobs => exact ⟨fun h => h, fun j hj _ => hj⟩

/-- Witness for C7: a completed job survives a sweep. -/
theorem completed_status_stable_witness :
    jobStatus
      (applyOp (TrackerOp.sweep 100)
        { docs := []
          jobs := [{ id := 1, document_id := 1
                     status := JobStatus.completed, created_at := 0 }]
          nextJobId := 2 }) 1 = some JobStatus.completed :=
  (completed_status_stable (TrackerOp.sweep 100)
    { docs := []
      jobs := [{ id := 1, document_id := 1
                 status := JobStatus.completed, created_at := 0 }]
      nextJobId := 2 } 1).1 rfl

/-!  Claim C8: the job listing. -/

theorem length_filterMap_of_some {α β : Type} (f : α → Option β) (l : List α)
    (h : ∀ a ∈ l, (f a).isSome) : (l.filterMap f).length = l.length := by
  induction l with
  | nil => rfl
  | cons a t ih =>
    rcases Option.isSome_iff_exists.mp (h a (List.mem_cons_self a t)) with ⟨b, hb⟩
    simp [List.filterMap_cons, hb, ih (fun x hx => h x (List.mem_cons_of_mem a hx))]

theorem mkJobView_isSome (st : TrackerState) (j : JobRow)
    (h : ∃ d ∈ st.docs, d.id = j.document_id) : (mkJobView st j).isSome := by
  rcases h with ⟨d, hd, hdid⟩
  have hfind : (st.docs.find? (fun x => x.id == j.document_id)).isSome :=
    List.find?_isSome.mpr ⟨d, hd, by simp [hdid]⟩
  rcases Option.isSome_iff_exists.mp hfind with ⟨d0, hd0⟩
  unfold mkJobView
  rw [hd0]
  rfl

/-- C8: with every job's document present, the listing has one row per
job, ordered by creation time descending, every job appears with its
document's filename, and every listed row comes from a job. -/
theorem list_ingestion_jobs_spec (st : TrackerState)
    (href : ∀ j ∈ st.jobs, ∃ d ∈ st.docs, d.id = j.document_id) :
    (list_ingestion_jobs st).length = st.jobs.length ∧
    List.Pairwise (fun a b : JobView => b.created_at ≤ a.created_at)
      (list_ingestion_jobs st) ∧
    (∀ j ∈ st.jobs, ∃ v ∈ list_ingestion_jobs st,
      v.id = j.id ∧ v.document_id = j.document_id ∧ v.status = j.status ∧
      v.created_at = j.created_at ∧
      (∃ d, st.docs.find? (fun x => x.id == j.document_id) = some d ∧
        v.filename = d.filename)) ∧
    (∀ v ∈ list_ingestion_jobs st, ∃ j ∈ st.jobs,
      v.id = j.id ∧ v.document_id = j.document_id ∧ v.status = j.status ∧
      v.created_at = j.created_at) := by
  refine ⟨?_, ?_, ?_, ?_⟩
  · unfold list_ingestion_jobs
    rw [(sortDesc_perm (fun v : JobView => v.created_at) _).length_eq]
    exact length_filterMap_of_some _ _ (fun j hj => mkJobView_isSome st j (href j hj))
  · exact sortDesc_pairwise _ _
  · intro j hj
    rcases Option.isSome_iff_exists.mp (mkJobView_isSome st j (href j hj)) with ⟨v, hv⟩
    have hvmem : v ∈ list_ingestion_jobs st := by
      unfold list_ingestion_jobs
      exact (sortDesc_perm (fun v : JobView => v.created_at) _).mem_iff.mpr
        (List.mem_filterMap.mpr ⟨j, hj, hv⟩)
    unfold mkJobView at hv
    rcases Option.map_eq_some'.mp hv with ⟨d, hd, hveq⟩
    subst hveq
    exact ⟨_, hvmem, rfl, rfl, rfl, rfl, d, hd, rfl⟩
  · intro v hv
    unfold list_ingestion_jobs at hv
    have hv2 := (sortDesc_perm (fun v : JobView => v.created_at) _).mem_iff.mp hv
    rcases List.mem_filterMap.mp hv2 with ⟨j, hj, hjv⟩
    unfold mkJobView at hjv
    rcases Option.map_eq_some'.mp hjv with ⟨d, _, hveq⟩
    subst hveq
    exact ⟨j, hj, rfl, rfl, rfl, rfl⟩

/-- Witness for C8 on a two-job store. -/
theorem list_ingestion_jobs_spec_witness :
    (list_ingestion_jobs
      { docs := [{ id := 1, filename := "a.txt".data }, { id := 2, filename := "b.txt".data }]
        jobs := [{ id := 1, document_id := 1, status := JobStatus.running, created_at := 5 },
                 { id := 2, document_id := 2, status := JobStatus.completed, created_at := 9 }]
        nextJobId := 3 }).length = 2 :=
  (list_ingestion_jobs_spec
    { docs := [{ id := 1, filename := "a.txt".data }, { id := 2, filename := "b.txt".data }]
      jobs := [{ id := 1, document_id := 1, status := JobStatus.running, created_at := 5 },
               { id := 2, document_id := 2, status := JobStatus.completed, created_at := 9 }]
      nextJobId := 3 } (by decide)).1

/-!  Claim C9: reindexing counts every book and never aborts. -/

theorem foldl_index_count (db : List BookRecord) (dbFail : Nat → Bool)
    (l : List BookRecord) (store : Store) (c : Nat) :
    (l.foldl (fun acc b => (index_book (dbFail b.id) db acc.1 b.id, acc.2 + 1))
        (store, c)).2 = c + l.length := by
  induction l generalizing store c with
  | nil => simp
  | cons b t ih =>
    rw [List.foldl_cons, ih]
    simp only [List.length_cons]
    omega

/-- C9: per-item indexing never propagates a failure — on an internal
error it returns with the store unchanged — hence reindexing counts every
book as indexed regardless of internal failures: `indexed_count` always
equals `total_books`, which is the number of persisted books. -/
theorem reindex_never_aborts (dbFail : Nat → Bool) (books : List BookRecord)
    (store : Store) :
    (reindex_all_books dbFail books store).2.indexed_count =
      (reindex_all_books dbFail books store).2.total_books ∧
    (reindex_all_books dbFail books store).2.total_books = books.length ∧
    (∀ (f : Bool) (db : List BookRecord) (s : Store) (book_id : Nat) (e : List Char),
      index_book_body f db s book_id = Except.error e → index_book f db s book_id = s) := by
  refine ⟨?_, rfl, ?_⟩
  · show (books.foldl (fun acc b => (index_book (dbFail b.id) books acc.1 b.id, acc.2 + 1))
        (store, 0)).2 = books.length
    rw [foldl_index_count]
    omega
  · intro f db s book_id e h
    unfold index_book
    rw [h]

/-- Witness for C9: a failing database access is swallowed and leaves the
store unchanged. -/
theorem reindex_never_aborts_witness : index_book true [] [] 0 = [] :=
  (reindex_never_aborts (fun _ => true) [] []).2.2 true [] [] 0 "db error".data rfl

/-!  Claim C10: search behaviour on the empty query. -/

theorem containsSub_nil (l : List Char) : containsSub [] l = true := by
  cases l <;> rfl

/-- Counterexample to C10 as stated: with a book in the store and the
empty query but `limit = 0`, search returns an empty result set. -/
theorem search_books_empty_query_cex :
    (search_books []
      [{ id := 1, title := "Dune".data, author := none, genre := none
         summary := none, reviews := [] }] [] 0).results = [] := rfl

/-- C10 (amended: the limit must be positive, as it is for the API
default of 5): for the empty query, when books exist and the limit is
positive, the matcher excludes everything, the fallback matches every
title, and search returns a non-empty list of at most `limit` books, each
scoring exactly 1. -/
theorem search_books_empty_query_amended (store : Store) (books : List BookRecord)
    (limit : Nat) (hbooks : books ≠ []) (hlimit : 0 < limit) :
    (search_books store books [] limit).results ≠ [] ∧
    (search_books store books [] limit).results.length ≤ limit ∧
    ((search_books store books [] limit).results.all
      fun h => decide (h.similarity_score = 1)) = true := by
  have hssb : search_similar_books store [] limit = [] :=
    search_similar_books_empty_query store limit
  have hres : (search_books store books [] limit).results =
      fallback_search books [] limit := by
    unfold search_books
    rw [hssb]
    rfl
  have hfilter : books.filter (fun b => containsSub (lowerStr []) (lowerStr b.title)) =
      books :=
    List.filter_eq_self.mpr (fun b _ => containsSub_nil _)
  rw [hres]
  unfold fallback_search
  rw [hfilter]
  refine ⟨?_, ?_, ?_⟩
  · cases books with
    | nil => exact absurd rfl hbooks
    | cons b t =>
      cases limit with
      | zero => exact absurd hlimit (by simp)
      | succ n => simp [List.take]
  · rw [List.length_map, List.length_take]
    exact min_le_left _ _
  · apply List.all_eq_true.mpr
    intro h hmem
    rcases List.mem_map.mp hmem with ⟨b, _, rfl⟩
    exact decide_eq_true rfl

/-- Witness for the amended C10 at limit 5 with one book. -/
theorem search_books_empty_query_amended_witness :
    (search_books []
      [{ id := 1, title := "Dune".data, author := none, genre := none
         summary := none, reviews := [] }] [] 5).results ≠ [] :=
  (search_books_empty_query_amended []
    [{ id := 1, title := "Dune".data, author := none, genre := none
       summary := none, reviews := [] }] 5 (by simp) (by decide)).1
